import Mathlib

/-!
Verification of the NGO chaincode query layer (`src/ngo-chaincode/src/ngo.js`).

The chaincode runs over Hyperledger Fabric's ordered key-value store. We embed:
* `JsVal` — the JSON values the chaincode manipulates (parsed query strings,
  parsed records, selector fields);
* `Bytes` — stored value bytes, tagged by whether they parse as JSON
  (`Bytes.json v` is the serialization of `v`; `Bytes.raw s` is text that does
  not parse as JSON, including the empty buffer `raw ""` that Fabric's
  `getState` returns for absent keys);
* `Store` — the ledger as an association list of key/bytes pairs, kept in
  ascending key order by the ordered store;
* the four operations the claims concern: `queryByKey`, `queryByString`
  (range planner + streaming filter loop), `queryHistoryForKey`, and
  `createEntry`.

The iterator loops of `queryByString` and `queryHistoryForKey` are embedded as
`scanLoop` / `histLoop` over an explicit stream of `next()` results
(`Except err entry`; the stream ends when the iterator reports done), and they
additionally return the number of `iterator.close()` calls performed, so that
the cursor-release obligations can be stated.  `JSON.stringify`/`Buffer.from`
envelopes on returned payloads are not modelled: the operations return the
list of result objects that the source serializes.
-/

/-- A JSON value, as produced by `JSON.parse`.  Numbers are modelled as
integers (the chaincode never computes with numeric fields; they only flow
through equality tests and string concatenation). -/
inductive JsVal where
  | str (s : String)
  | num (n : Int)
  | bool (b : Bool)
  | null
  | arr (elems : List JsVal)
  | obj (fields : List (String × JsVal))
deriving Repr

/-- JavaScript truthiness of a value, as used by the guards
`jsonQueryString['selector'] && jsonQueryString['selector']['docType']` and
`jsonRes.Record[key] && ...` in the source. -/
def JsVal.truthy : JsVal → Bool
  | .str s => !s.isEmpty
  | .num n => n != 0
  | .bool b => b
  | .null => false
  | .arr _ => true
  | .obj _ => true

/-- JavaScript loose equality `==` as exercised by the source.  The two
operands always come from separate `JSON.parse` calls (a selector field and a
record field), so object/array comparisons are reference comparisons between
distinct objects and yield `false`; scalar comparisons of like type are
structural.  Cross-type numeric coercions (`"1" == 1`) are not exercised by
this chaincode's string-valued selectors and are not modelled. -/
def jsLooseEq : JsVal → JsVal → Bool
  | .str a, .str b => a == b
  | .num a, .num b => a == b
  | .bool a, .bool b => a == b
  | .null, .null => true
  | _, _ => false

/-- JavaScript `ToString` coercion, as used by string concatenation
(`'entity' + json['entityRegistrationNumber']`, `docType + key`).  The values
concatenated by this chaincode are JSON scalars; the `join(',')` rendering of
non-empty arrays is not modelled (never exercised). -/
def JsVal.jsToString : JsVal → String
  | .str s => s
  | .num n => toString n
  | .bool b => if b then "true" else "false"
  | .null => "null"
  | .arr _ => ""
  | .obj _ => "[object Object]"

/-- First-occurrence lookup of a field in a JSON object's field list
(`JSON.parse` yields objects with distinct keys). -/
def lookupField (fs : List (String × JsVal)) (f : String) : Option JsVal :=
  (fs.find? (fun p => p.1 == f)).map (·.2)

/-- JavaScript member access `v[f]`: defined on objects, `undefined` (here
`none`) on other values.  Member access on a `null` base would throw in JS;
records written by this chaincode are always JSON objects
(`createEntity`/`createEntry` store objects), so that path is not exercised
and is modelled as `undefined`. -/
def jsIndex : JsVal → String → Option JsVal
  | .obj fs, f => lookupField fs f
  | _, _ => none

/-- `v[f]` rendered through string concatenation: an absent field concatenates
as the string `"undefined"`. -/
def jsFieldConcat (v : JsVal) (f : String) : String :=
  match jsIndex v f with
  | some x => x.jsToString
  | none => "undefined"

/-- Field access on a parsed-object argument list, rendered for string
concatenation (absent fields concatenate as `"undefined"`). -/
def jsFieldConcatObj (fs : List (String × JsVal)) (f : String) : String :=
  match lookupField fs f with
  | some x => x.jsToString
  | none => "undefined"

/-- JS assignment `obj[f] = v`: replaces the field in place if present,
appends it otherwise. -/
def objSet (fs : List (String × JsVal)) (f : String) (v : JsVal) : List (String × JsVal) :=
  if fs.any (fun p => p.1 == f) then
    fs.map (fun p => if p.1 == f then (f, v) else p)
  else fs ++ [(f, v)]

/-- Stored value bytes.  `json v` is the `JSON.stringify` serialization of
`v` (never the empty string); `raw s` is byte content that does not parse as
JSON — in particular `raw ""` is the empty buffer Fabric returns for absent
keys and for deletion records in a key's history. -/
inductive Bytes where
  | json (v : JsVal)
  | raw (s : String)
deriving Repr

/-- Embeds the emptiness test `value.toString().length > 0` (equivalently the
truthiness of `value.toString()`): a serialized JSON value is never the empty
string. -/
def Bytes.nonEmptyStr : Bytes → Bool
  | .json _ => true
  | .raw s => !s.isEmpty

/-- The record value placed in a result entry: the decoded JSON on success,
the raw text (`value.toString('utf8')`) when `JSON.parse` throws. -/
inductive RecVal where
  | record (v : JsVal)
  | rawStr (s : String)
deriving Repr

/-- `try { JSON.parse(bytes) } catch { bytes.toString() }` — the decode-or-
fallback step shared by the scan loop and the history loop. -/
def decodeRecord : Bytes → RecVal
  | .json v => .record v
  | .raw s => .rawStr s

/-- Member access on a result record: on a decoded object it is JSON field
lookup; on a raw-string fallback, string property access by a field name
yields `undefined`. -/
def recIndex : RecVal → String → Option JsVal
  | .record v, f => jsIndex v f
  | .rawStr _, _ => none

/-- The ledger: an association list of key/bytes pairs.  The ordered store
keeps it sorted by ascending key (stated as a hypothesis where ordering
matters). -/
abbrev Store := List (String × Bytes)

/-- `stub.getState(key)`: Fabric returns the stored bytes, or an empty buffer
when the key is absent. -/
def getState (store : Store) (key : String) : Bytes :=
  match List.find? (fun kv => kv.1 == key) store with
  | some kv => kv.2
  | none => .raw ""

/-- Byte-order comparison of characters, as used by the ordered store's key
order (LevelDB compares keys bytewise; for the chaincode's ASCII keys this is
also JS string order). -/
def charLtB (a b : Char) : Bool := a.toNat < b.toNat

/-- Lexicographic order on character lists under `charLtB`. -/
def strLtL : List Char → List Char → Bool
  | [], [] => false
  | [], _ :: _ => true
  | _ :: _, [] => false
  | a :: as, b :: bs =>
    if charLtB a b then true
    else if charLtB b a then false
    else strLtL as bs

/-- The ordered store's strict key order: bytewise lexicographic. -/
def strLt (s t : String) : Bool := strLtL s.data t.data

def strLe (s t : String) : Bool := !strLt t s

/-- `stub.putState(key, bytes)`: upsert, preserving ascending key order. -/
def putState : Store → String → Bytes → Store
  | [], k, b => [(k, b)]
  | (k', b') :: rest, k, b =>
    if k == k' then (k, b) :: rest
    else if strLt k k' then (k, b) :: (k', b') :: rest
    else (k', b') :: putState rest k b

/-- `stub.getStateByRange(startKey, endKey)`: all entries whose key lies in
the half-open range `[startKey, endKey)`, yielded in the store's (ascending)
order. -/
def getStateByRange (store : Store) (startKey endKey : String) : List (String × Bytes) :=
  List.filter (fun kv => strLe startKey kv.1 && strLt kv.1 endKey) store

/-! ## queryByKey (ngo.js lines 32–43) -/

/-- `queryByKey`: point lookup; throws when the stored value is absent or
empty (`!resultAsBytes || resultAsBytes.toString().length <= 0`; Fabric's
`getState` always yields a buffer, absent keys give the empty buffer), and
otherwise returns the stored bytes unchanged. -/
def queryByKey (store : Store) (key : String) : Except String Bytes :=
  let resultAsBytes := getState store key
  if !resultAsBytes.nonEmptyStr then
    .error ("queryByKey key: " ++ key ++ " does not exist")
  else
    .ok resultAsBytes

/-! ## queryByString (ngo.js lines 53–133) -/

/-- One entry of the serialized scan payload: `{Key, Record}`. -/
structure QueryResult where
  Key : String
  Record : RecVal
deriving Repr

/-- The filter test `jsonRes.Record[key] && jsonRes.Record[key] == jsonRecord[key]`
for one selector field (ngo.js line 115). -/
def fieldMatches (r : RecVal) (f : String) (v : JsVal) : Bool :=
  match recIndex r f with
  | some x => x.truthy && jsLooseEq x v
  | none => false

/-- Processing of one non-empty scanned entry (ngo.js lines 86–121): build
`{Key, Record}` with decode-or-fallback, then either push it unconditionally
when the selector has only one key (`docType`), or run the per-field filter
loop, which pushes the entry once for each non-`docType` selector field that
matches. -/
def processScanEntry (selFields : List (String × JsVal)) (k : String) (b : Bytes) :
    List QueryResult :=
  let record := decodeRecord b
  if selFields.length == 1 then
    [⟨k, record⟩]
  else
    selFields.foldl
      (fun acc fv =>
        if fv.1 == "docType" then acc
        else if fieldMatches record fv.1 fv.2 then acc ++ [⟨k, record⟩]
        else acc)
      []

/-- The `while (true)` iterator loop of `queryByString` (ngo.js lines 82–132),
over the stream of `iterator.next()` outcomes (`Except.error` is a rejected
`next()`, whose exception propagates out of the loop; the stream ends when the
iterator reports done).  Entries with empty value bytes fail the
`res.value && res.value.value.toString()` guard and are skipped.  The second
component counts `iterator.close()` calls: the loop closes once when `done`
is reached, and a rejected `next()` leaves the loop without closing. -/
def scanLoop (selFields : List (String × JsVal)) :
    List (Except String (String × Bytes)) → List QueryResult →
    Except String (List QueryResult) × Nat
  | [], acc => (.ok acc, 1)
  | .error e :: _, _ => (.error e, 0)
  | .ok (k, b) :: rest, acc =>
    if b.nonEmptyStr then scanLoop selFields rest (acc ++ processScanEntry selFields k b)
    else scanLoop selFields rest acc

/-- The guard of ngo.js lines 68–75:
`jsonQueryString['selector'] && jsonQueryString['selector']['docType']`.
Returns the selector's field list together with its `docType` value when both
tests pass (a JSON object is always truthy, and only objects have a `docType`
member), and `none` when the missing-docType error is thrown. -/
def getSelector (q : JsVal) : Option (List (String × JsVal) × JsVal) :=
  match jsIndex q "selector" with
  | some (.obj fs) =>
    match lookupField fs "docType" with
    | some dt => if dt.truthy then some (fs, dt) else none
    | none => none
  | _ => none

def missingDocTypeMsg : String :=
  "queryByString - Cannot call queryByString without a docType element"

/-- `queryByString` (ngo.js lines 53–133) on the parsed query string: plan the
range `[docType + "0", docType + "z")` from the selector's `docType` (throwing
the missing-docType error when the selector guard fails), scan it, and run the
streaming filter loop.  The store-backed iterator never rejects, so every step
is `Except.ok`. -/
def queryByString (store : Store) (q : JsVal) : Except String (List QueryResult) :=
  match getSelector q with
  | none => .error missingDocTypeMsg
  | some (selFields, dt) =>
    let docType := dt.jsToString
    let startKey := docType ++ "0"
    let endKey := docType ++ "z"
    (scanLoop selFields ((getStateByRange store startKey endKey).map Except.ok) []).1

/-! ## queryHistoryForKey (ngo.js lines 353–390) -/

/-- One record of the store's per-key change log, as yielded by
`stub.getHistoryForKey`: transaction id, timestamp, deletion flag, and the
value bytes at that point (empty for deletion records). -/
structure HistRecord where
  tx_id : String
  timestamp : String
  is_delete : Bool
  value : Bytes
deriving Repr

/-- One entry of the serialized history payload (ngo.js lines 369–381):
`IsDelete` is `is_delete.toString()`, hence a string. -/
structure HistEntry where
  TxId : String
  Timestamp : String
  IsDelete : String
  Record : RecVal
deriving Repr

def mkHistEntry (r : HistRecord) : HistEntry :=
  { TxId := r.tx_id
    Timestamp := r.timestamp
    IsDelete := if r.is_delete then "true" else "false"
    Record := decodeRecord r.value }

/-- The `while (true)` history loop (ngo.js lines 365–389), over the stream of
`historyIterator.next()` outcomes.  Records failing the
`historyRecord.value && historyRecord.value.value.toString()` guard (empty
value bytes) are skipped.  Second component counts `close()` calls, as in
`scanLoop`. -/
def histLoop :
    List (Except String HistRecord) → List HistEntry →
    Except String (List HistEntry) × Nat
  | [], acc => (.ok acc, 1)
  | .error e :: _, _ => (.error e, 0)
  | .ok r :: rest, acc =>
    if r.value.nonEmptyStr then histLoop rest (acc ++ [mkHistEntry r])
    else histLoop rest acc

/-- The per-key change logs of the store, as served by
`stub.getHistoryForKey`. -/
abbrev HistStore := String → List HistRecord

/-- `queryHistoryForKey` (ngo.js lines 353–390) on the parsed argument object:
reads `json['key']` and `json['docType']`, queries the history of
`docType + key` (string concatenation; absent fields concatenate as
`"undefined"`), and replays the change log through the history loop. -/
def queryHistoryForKey (hist : HistStore) (args : JsVal) : Except String (List HistEntry) :=
  let key := jsFieldConcat args "key"
  let docType := jsFieldConcat args "docType"
  (histLoop ((hist (docType ++ key)).map Except.ok) []).1

/-! ## createEntry (ngo.js lines 288–314) -/

/-- Exception semantics for a handler that performs at most one `putState` as
its final action: a thrown error leaves the ledger as it was. -/
def stateAfter (store : Store) : Except String Store → Store
  | .ok s => s
  | .error _ => store

/-- `createEntry` (ngo.js lines 288–314) on the parsed argument object:
computes the entry key from `entryId`, stamps `docType = 'entry'`, and, before
any write, first checks that the referenced Entity exists
(`!entityQuery.toString()` throws) and then that the Entry does not already
exist; only then writes the entry.  Returns the updated store on success. -/
def createEntry (store : Store) (args : List (String × JsVal)) : Except String Store :=
  let key := "entry" ++ jsFieldConcatObj args "entryId"
  let json := objSet args "docType" (.str "entry")
  let entityKey := "entity" ++ jsFieldConcatObj json "entityRegistrationNumber"
  let entityQuery := getState store entityKey
  if !entityQuery.nonEmptyStr then
    .error ("createEntry - Cannot create entry as the Entity does not exist: " ++
      jsFieldConcatObj json "entityRegistrationNumber")
  else
    let entryQuery := getState store key
    if entryQuery.nonEmptyStr then
      .error ("createEntry - This Entry already exists: " ++ jsFieldConcatObj json "entryId")
    else
      .ok (putState store key (.json (.obj json)))

/-! ## Derived descriptions of the loops, used to state the claims -/

/-- The output the scan loop accumulates over a list of successfully yielded
entries: nothing for an empty-valued entry, the per-entry pushes otherwise. -/
def scanOut (selFields : List (String × JsVal)) : List (String × Bytes) → List QueryResult
  | [] => []
  | kv :: rest =>
    (if kv.2.nonEmptyStr then processScanEntry selFields kv.1 kv.2 else []) ++
      scanOut selFields rest

/-- The number of non-`docType` selector fields a record matches under the
per-field filter test. -/
def matchCount (selFields : List (String × JsVal)) (r : RecVal) : Nat :=
  (selFields.filter (fun p => !(p.1 == "docType") && fieldMatches r p.1 p.2)).length

/-- The query string `{"selector": {"docType": d}}`, parsed. -/
def mkQuery0 (d : String) : JsVal :=
  .obj [("selector", .obj [("docType", .str d)])]

/-- The query string `{"selector": {"docType": d, f: v}}`, parsed. -/
def mkQuery1 (d f : String) (v : JsVal) : JsVal :=
  .obj [("selector", .obj [("docType", .str d), (f, v)])]

/-! ## Concrete ledgers, logs and queries used by witnesses and counterexamples -/

def entity001Rec : JsVal :=
  .obj [("docType", .str "entity"), ("entityRegistrationNumber", .str "001"),
    ("entityName", .str "Alpha")]

def entity002Rec : JsVal :=
  .obj [("docType", .str "entity"), ("entityRegistrationNumber", .str "002"),
    ("entityName", .str "Beta")]

def demoStore : Store :=
  [("entity001", .json entity001Rec), ("entity002", .json entity002Rec)]

/-- A change log of three mutations: insert, update, then delete.  Fabric
records a deletion with empty value bytes. -/
def insertUpdateDeleteLog : List HistRecord :=
  [⟨"tx1", "t1", false, .json entity001Rec⟩,
   ⟨"tx2", "t2", false, .json entity002Rec⟩,
   ⟨"tx3", "t3", true, .raw ""⟩]

def demoHistStore : HistStore :=
  fun k => if k == "entity001" then insertUpdateDeleteLog else []

def histArgs : JsVal := .obj [("key", .str "001"), ("docType", .str "entity")]

/-- A ledger whose only in-range entry has empty value bytes. -/
def emptyValStore : Store := [("entity1", Bytes.raw "")]

/-- A ledger whose only entry does not parse as JSON. -/
def rawStore : Store := [("entityA", Bytes.raw "not json")]

def rawQuery : JsVal :=
  .obj [("selector", .obj [("docType", .str "entity"), ("entityName", .str "Alpha")])]

/-- A one-record change log whose value bytes do not parse as JSON. -/
def rawLog : List HistRecord := [⟨"txa", "ta", false, .raw "not json"⟩]

/-- A record matching two non-`docType` selector fields. -/
def dupRec : JsVal :=
  .obj [("docType", .str "entity"), ("entityName", .str "Alpha"), ("address", .str "Main")]

def dupStore : Store := [("entity1", .json dupRec)]

def dupQuery : JsVal :=
  .obj [("selector",
    .obj [("docType", .str "entity"), ("entityName", .str "Alpha"), ("address", .str "Main")])]

/-! ## Loop lemmas -/

theorem scanLoop_ok (selFields : List (String × JsVal)) (l : List (String × Bytes)) :
    ∀ acc, scanLoop selFields (l.map Except.ok) acc =
      (Except.ok (acc ++ scanOut selFields l), 1) := by
  induction l with
  | nil => intro acc; simp [scanLoop, scanOut]
  | cons kv rest ih =>
    intro acc
    obtain ⟨k, b⟩ := kv
    cases hb : b.nonEmptyStr <;>
      simp [scanLoop, scanOut, hb, ih, List.append_assoc]

theorem histLoop_ok (l : List HistRecord) :
    ∀ acc, histLoop (l.map Except.ok) acc =
      (Except.ok (acc ++ (l.filter (fun r => r.value.nonEmptyStr)).map mkHistEntry), 1) := by
  induction l with
  | nil => intro acc; simp [histLoop]
  | cons r rest ih =>
    intro acc
    cases hb : r.value.nonEmptyStr <;>
      simp [histLoop, hb, ih, List.append_assoc]

theorem scanLoop_error (selFields : List (String × JsVal)) (pre : List (String × Bytes))
    (err : String) (rest : List (Except String (String × Bytes))) :
    ∀ acc, (scanLoop selFields (pre.map Except.ok ++ Except.error err :: rest) acc).2 = 0 := by
  induction pre with
  | nil => intro acc; simp [scanLoop]
  | cons kv pre ih =>
    intro acc
    obtain ⟨k, b⟩ := kv
    cases hb : b.nonEmptyStr <;> simp [scanLoop, hb, ih]

theorem histLoop_error (pre : List HistRecord) (err : String)
    (rest : List (Except String HistRecord)) :
    ∀ acc, (histLoop (pre.map Except.ok ++ Except.error err :: rest) acc).2 = 0 := by
  induction pre with
  | nil => intro acc; simp [histLoop]
  | cons r pre ih =>
    intro acc
    cases hb : r.value.nonEmptyStr <;> simp [histLoop, hb, ih]

theorem scanOut_eq_flatMap (selFields : List (String × JsVal)) (l : List (String × Bytes)) :
    scanOut selFields l =
      (l.filter (fun kv => kv.2.nonEmptyStr)).flatMap
        (fun kv => processScanEntry selFields kv.1 kv.2) := by
  induction l with
  | nil => simp [scanOut]
  | cons kv rest ih =>
    cases hb : kv.2.nonEmptyStr <;> simp [scanOut, hb, ih, List.filter_cons]

/-- The per-field filter loop, started from any accumulator, appends one copy
of the entry per satisfying non-`docType` field. -/
theorem filterFold_replicate (r : RecVal) (e : QueryResult) (selFields : List (String × JsVal)) :
    ∀ acc, selFields.foldl
      (fun acc fv =>
        if fv.1 == "docType" then acc
        else if fieldMatches r fv.1 fv.2 then acc ++ [e]
        else acc) acc = acc ++ List.replicate (matchCount selFields r) e := by
  induction selFields with
  | nil => intro acc; simp [matchCount]
  | cons p rest ih =>
    intro acc
    rw [List.foldl_cons]
    cases hd : (p.1 == "docType")
    · cases hm : fieldMatches r p.1 p.2
      · have h1 : matchCount (p :: rest) r = matchCount rest r := by
          simp [matchCount, List.filter_cons, hd, hm]
        rw [h1, if_neg (by simp [hd]), if_neg (by simp [hm]), ih]
      · have h1 : matchCount (p :: rest) r = matchCount rest r + 1 := by
          simp [matchCount, List.filter_cons, hd, hm]
        rw [h1, if_neg (by simp [hd]), if_pos (by simp [hm]), ih, List.append_assoc]
        congr 1
    · have h1 : matchCount (p :: rest) r = matchCount rest r := by
        simp [matchCount, List.filter_cons, hd]
      rw [h1, if_pos (by simp [hd]), ih]

/-- When the selector has more than its `docType` key, processing one scanned
entry yields one copy of the `{Key, Record}` object per satisfying
non-`docType` field. -/
theorem processScanEntry_eq_replicate (selFields : List (String × JsVal)) (k : String)
    (b : Bytes) (h : selFields.length ≠ 1) :
    processScanEntry selFields k b =
      List.replicate (matchCount selFields (decodeRecord b)) ⟨k, decodeRecord b⟩ := by
  have hlen : (selFields.length == 1) = false := by
    simp [h]
  simp only [processScanEntry, hlen, Bool.false_eq_true, if_false]
  exact filterFold_replicate (decodeRecord b) ⟨k, decodeRecord b⟩ selFields []

/-- With a `docType`-only selector the loop pushes every non-empty scanned
entry unconditionally. -/
theorem scanOut_single (selFields : List (String × JsVal)) (h : selFields.length = 1)
    (l : List (String × Bytes)) :
    scanOut selFields l =
      (l.filter (fun kv => kv.2.nonEmptyStr)).map
        (fun kv => ⟨kv.1, decodeRecord kv.2⟩) := by
  have hlen : (selFields.length == 1) = true := by simp [h]
  induction l with
  | nil => simp [scanOut]
  | cons kv rest ih =>
    cases hb : kv.2.nonEmptyStr <;>
      simp [scanOut, hb, ih, List.filter_cons, processScanEntry, hlen]

theorem jsLooseEq_eq {x v : JsVal} (h : jsLooseEq x v = true) : x = v := by
  cases x <;> cases v <;> simp_all [jsLooseEq]

theorem isEmpty_false_of_ne {d : String} (hd : d ≠ "") : d.isEmpty = false := by
  cases h : d.isEmpty
  · rfl
  · exact absurd ((String.isEmpty_iff d).mp h) hd

theorem getSelector_mkQuery0 (d : String) (hd : d ≠ "") :
    getSelector (mkQuery0 d) = some ([("docType", .str d)], .str d) := by
  simp [getSelector, mkQuery0, jsIndex, lookupField, JsVal.truthy,
    isEmpty_false_of_ne hd]

theorem getSelector_mkQuery1 (d f : String) (v : JsVal) (hd : d ≠ "") :
    getSelector (mkQuery1 d f v) = some ([("docType", .str d), (f, v)], .str d) := by
  simp [getSelector, mkQuery1, jsIndex, lookupField, JsVal.truthy, List.find?,
    isEmpty_false_of_ne hd]

theorem queryByString_of_getSelector (store : Store) (q : JsVal)
    (selFields : List (String × JsVal)) (dt : JsVal)
    (hsel : getSelector q = some (selFields, dt)) :
    queryByString store q =
      Except.ok (scanOut selFields
        (getStateByRange store (dt.jsToString ++ "0") (dt.jsToString ++ "z"))) := by
  simp [queryByString, hsel, scanLoop_ok]

theorem mem_scanOut {selFields : List (String × JsVal)} {l : List (String × Bytes)}
    {e : QueryResult} :
    e ∈ scanOut selFields l ↔
      ∃ kv, kv ∈ l ∧ kv.2.nonEmptyStr = true ∧ e ∈ processScanEntry selFields kv.1 kv.2 := by
  rw [scanOut_eq_flatMap]
  simp only [List.mem_flatMap, List.mem_filter]
  constructor
  · rintro ⟨kv, ⟨hmem, hne⟩, hproc⟩
    exact ⟨kv, hmem, hne, hproc⟩
  · rintro ⟨kv, hmem, hne, hproc⟩
    exact ⟨kv, ⟨hmem, hne⟩, hproc⟩

theorem lookupField_map_set (fs : List (String × JsVal)) (g f : String) (v : JsVal)
    (hgf : (g == f) = false) :
    lookupField (fs.map (fun p => if p.1 == g then (g, v) else p)) f = lookupField fs f := by
  induction fs with
  | nil => rfl
  | cons p rest ih =>
    cases hp : (p.1 == g)
    · simp only [List.map_cons, if_neg (by simp [hp] : ¬ ((p.1 == g) = true))]
      simp only [lookupField] at ih ⊢
      cases hf : (p.1 == f)
      · simp only [List.find?_cons, hf]
        exact ih
      · simp only [List.find?_cons, hf]
    · have hpf : (p.1 == f) = false := by
        have hpg : p.1 = g := by simpa using hp
        rw [hpg]; exact hgf
      simp only [List.map_cons, if_pos hp]
      simp only [lookupField] at ih ⊢
      simp only [List.find?_cons, hgf, hpf]
      exact ih

theorem lookupField_objSet_ne (fs : List (String × JsVal)) (g f : String) (v : JsVal)
    (h : f ≠ g) :
    lookupField (objSet fs g v) f = lookupField fs f := by
  have hgf : (g == f) = false := by simp [Ne.symm h]
  unfold objSet
  split
  · exact lookupField_map_set fs g f v hgf
  · simp only [lookupField, List.find?_append]
    cases hfind : List.find? (fun p => p.1 == f) fs
    · simp [List.find?, hgf]
    · simp

theorem getSelector_none_iff (q : JsVal) :
    getSelector q = none ↔
      ¬ ∃ sel dt, jsIndex q "selector" = some sel ∧ jsIndex sel "docType" = some dt ∧
        dt.truthy = true := by
  unfold getSelector
  cases hq : jsIndex q "selector" with
  | none => simp [hq]
  | some sel =>
    cases sel with
    | str s => simp [hq, jsIndex]
    | num n => simp [hq, jsIndex]
    | bool b => simp [hq, jsIndex]
    | null => simp [hq, jsIndex]
    | arr xs => simp [hq, jsIndex]
    | obj fs =>
      cases hl : lookupField fs "docType" with
      | none => simp [hq, jsIndex, hl]
      | some dt =>
        cases ht : dt.truthy <;> simp [hq, jsIndex, hl, ht]

theorem fieldMatches_recIndex {r : RecVal} {f : String} {v : JsVal}
    (h : fieldMatches r f v = true) : recIndex r f = some v := by
  unfold fieldMatches at h
  cases hri : recIndex r f with
  | none => rw [hri] at h; exact absurd h (by simp)
  | some x =>
    rw [hri] at h
    rw [Bool.and_eq_true] at h
    rw [jsLooseEq_eq h.2]

theorem fieldMatches_record {r : RecVal} {f : String} {v : JsVal}
    (h : fieldMatches r f v = true) :
    ∃ w, r = RecVal.record w ∧ jsIndex w f = some v := by
  have hri := fieldMatches_recIndex h
  cases r with
  | record w => exact ⟨w, rfl, hri⟩
  | rawStr s => simp [recIndex] at hri

/-- For a selector with `docType` plus exactly one further field, the filter
loop contributes one copy of the entry exactly when that field matches. -/
theorem matchCount_two (d f : String) (v : JsVal) (r : RecVal) (hf : f ≠ "docType") :
    matchCount [("docType", JsVal.str d), (f, v)] r =
      if fieldMatches r f v then 1 else 0 := by
  have hfd : (f == "docType") = false := by simp [hf]
  cases hm : fieldMatches r f v <;>
    simp [matchCount, List.filter_cons, hfd, hm]

/-! ## Claim theorems -/

/-- Claim C9. The point lookup `queryByKey` fails with a not-found error if and
only if the stored value for the key is absent or empty (absent keys read as
the empty buffer); for every key with a non-empty stored value it returns the
stored bytes unchanged. -/
theorem C9_queryByKey_spec (store : Store) (key : String) :
    ((∃ msg, queryByKey store key = Except.error msg) ↔
      (getState store key).nonEmptyStr = false)
  ∧ ((getState store key).nonEmptyStr = true →
      queryByKey store key = Except.ok (getState store key)) := by
  cases hb : (getState store key).nonEmptyStr <;> simp [queryByKey, hb]

/-- Claim C10. Both the range-scan loop and the history loop silently skip every
entry whose stored value bytes are empty: running either loop over a stream of
yielded entries produces exactly the output of running it over the stream with
the empty-valued entries removed, so an empty-valued entry (in particular a
deletion record in a key's change log) never contributes to the returned
payload. -/
theorem C10_empty_values_skipped (selFields : List (String × JsVal))
    (entries : List (String × Bytes)) (log : List HistRecord) :
    (scanLoop selFields (entries.map Except.ok) []).1 =
      (scanLoop selFields ((entries.filter (fun kv => kv.2.nonEmptyStr)).map Except.ok) []).1
  ∧ (histLoop (log.map Except.ok) []).1 =
      (histLoop ((log.filter (fun r => r.value.nonEmptyStr)).map Except.ok) []).1 := by
  constructor
  · rw [scanLoop_ok, scanLoop_ok]
    simp [scanOut_eq_flatMap, List.filter_filter]
  · rw [histLoop_ok, histLoop_ok]
    simp [List.filter_filter]

/-- Claim C4 counterexample. A failure raised by `iterator.next()` during
iteration terminates both loops without a single `close()` call: the claim
that the cursor is closed exactly once "including when the operation
terminates early via a failure raised during iteration" is false. -/
theorem C4_counterexample :
    (scanLoop [("docType", JsVal.str "entity")] [Except.error "iterator failure"] []).2 = 0
  ∧ (histLoop [Except.error "iterator failure"] []).2 = 0 :=
  ⟨rfl, rfl⟩

/-- Claim C4 amended. For every range-scan or history loop run that completes
normally — zero, one, or many entries — the cursor is closed exactly once;
when a `next()` call fails mid-iteration, the loop propagates the failure and
the cursor is not closed at all. -/
theorem C4_amended (selFields : List (String × JsVal)) (entries : List (String × Bytes))
    (log : List HistRecord) (pre : List (String × Bytes)) (hpre : List HistRecord)
    (err : String) (rest : List (Except String (String × Bytes)))
    (hrest : List (Except String HistRecord)) :
    (scanLoop selFields (entries.map Except.ok) []).2 = 1
  ∧ (histLoop (log.map Except.ok) []).2 = 1
  ∧ (scanLoop selFields (pre.map Except.ok ++ Except.error err :: rest) []).2 = 0
  ∧ (histLoop (hpre.map Except.ok ++ Except.error err :: hrest) []).2 = 0 :=
  ⟨by rw [scanLoop_ok], by rw [histLoop_ok],
   scanLoop_error selFields pre err rest [], histLoop_error hpre err hrest []⟩

/-- Claim C1. Evaluation of `queryHistoryForKey` at the failing input: a key
mutated three times — insert, update, delete, the deletion record carrying
Fabric's empty value bytes — yields only a two-entry history with `IsDelete`
`"false", "false"`, not the three entries with flags false, false, true that
the claim requires: the value guard drops the empty-valued deletion record. -/
theorem C1_history_drops_deletion :
    insertUpdateDeleteLog.length = 3
  ∧ insertUpdateDeleteLog.map HistRecord.is_delete = [false, false, true]
  ∧ queryHistoryForKey demoHistStore histArgs =
      Except.ok
        [⟨"tx1", "t1", "false", .record entity001Rec⟩,
         ⟨"tx2", "t2", "false", .record entity002Rec⟩] :=
  ⟨rfl, rfl, rfl⟩

/-- Claim C6 counterexample. A selector whose `docType` field is present but
empty (`{"selector":{"docType":""}}`) still raises the missing-docType error,
so the error is not raised "if and only if the selector lacks a docType
field". -/
theorem C6_counterexample :
    lookupField [("docType", JsVal.str "")] "docType" = some (JsVal.str "")
  ∧ queryByString [] (JsVal.obj [("selector", JsVal.obj [("docType", JsVal.str "")])]) =
      Except.error missingDocTypeMsg :=
  ⟨rfl, rfl⟩

/-- Claim C6 amended. `queryByString` fails with the missing-docType error if
and only if the parsed query lacks a selector whose `docType` member is
present and truthy (so an absent selector, a selector without `docType`, and a
present-but-falsy `docType` such as the empty string all raise it); whenever a
truthy `docType` is present the range scan proceeds and the call returns a
result. -/
theorem C6_amended (store : Store) (q : JsVal) :
    (queryByString store q = Except.error missingDocTypeMsg ↔
      ¬ ∃ sel dt, jsIndex q "selector" = some sel ∧ jsIndex sel "docType" = some dt ∧
        dt.truthy = true)
  ∧ ((∃ sel dt, jsIndex q "selector" = some sel ∧ jsIndex sel "docType" = some dt ∧
        dt.truthy = true) →
      ∃ res, queryByString store q = Except.ok res) := by
  have hok : ∀ selFields dt, getSelector q = some (selFields, dt) →
      ∃ res, queryByString store q = Except.ok res := by
    intro selFields dt hsel
    exact ⟨_, queryByString_of_getSelector store q selFields dt hsel⟩
  constructor
  · rw [← getSelector_none_iff]
    constructor
    · intro herr
      cases hsel : getSelector q with
      | none => rfl
      | some p =>
        obtain ⟨res, hres⟩ := hok p.1 p.2 (by rw [hsel])
        rw [herr] at hres
        exact absurd hres (by simp)
    · intro hnone
      simp [queryByString, hnone]
  · intro hex
    cases hsel : getSelector q with
    | none => exact absurd hex ((getSelector_none_iff q).mp hsel)
    | some p => exact hok p.1 p.2 (by rw [hsel])

/-- Claim C3 counterexample. A scanned record with empty value bytes is not
returned: on a ledger whose only in-range entry is `("entity1", "")`, the
`docType`-only query scans that entry but returns the empty payload, so the
claim that every scanned record is returned unconditionally is false. -/
theorem C3_counterexample :
    getStateByRange emptyValStore ("entity" ++ "0") ("entity" ++ "z") =
      [("entity1", Bytes.raw "")]
  ∧ queryByString emptyValStore (mkQuery0 "entity") = Except.ok [] :=
  ⟨rfl, rfl⟩

/-- Claim C3 amended. For a selector whose only field is a non-empty `docType`,
`queryByString` scans exactly the half-open key range
`[docType ++ "0", docType ++ "z")` and returns every scanned record whose
value bytes are non-empty — with no predicate exclusion — paired with its key,
in the store's ascending lexicographic key order. -/
theorem C3_amended (store : Store) (d : String) (hd : d ≠ "")
    (hsorted : List.Pairwise (fun a b : String × Bytes => strLt a.1 b.1 = true) store) :
    queryByString store (mkQuery0 d) =
      Except.ok
        (((getStateByRange store (d ++ "0") (d ++ "z")).filter
            (fun kv => kv.2.nonEmptyStr)).map (fun kv => ⟨kv.1, decodeRecord kv.2⟩))
  ∧ List.Pairwise (fun a b : QueryResult => strLt a.Key b.Key = true)
      (((getStateByRange store (d ++ "0") (d ++ "z")).filter
          (fun kv => kv.2.nonEmptyStr)).map (fun kv => ⟨kv.1, decodeRecord kv.2⟩)) := by
  constructor
  · have hq := queryByString_of_getSelector store (mkQuery0 d) _ _ (getSelector_mkQuery0 d hd)
    rw [hq]
    simp only [JsVal.jsToString]
    rw [scanOut_single [("docType", JsVal.str d)] rfl]
  · have h1 : List.Pairwise (fun a b : String × Bytes => strLt a.1 b.1 = true)
        ((getStateByRange store (d ++ "0") (d ++ "z")).filter
          (fun kv => kv.2.nonEmptyStr)) :=
      (hsorted.filter _).filter _
    exact h1.map _ (fun a b hab => hab)

/-- Claim C3 witness, doubling as end-to-end scenario 1: the two-entity ledger
queried with `{"selector":{"docType":"entity"}}` returns both records in key
order. -/
theorem C3_witness :
    queryByString demoStore (mkQuery0 "entity") =
      Except.ok
        [⟨"entity001", RecVal.record entity001Rec⟩,
         ⟨"entity002", RecVal.record entity002Rec⟩] := by
  have h := C3_amended demoStore "entity" (by decide)
    (by simp only [demoStore, List.pairwise_cons, List.Pairwise.nil, List.mem_singleton,
          List.not_mem_nil, false_implies, implies_true, and_true]
        intro kv hkv
        rw [hkv]
        rfl)
  rw [h.1]
  rfl

/-- Claim C5. For every selector with two or more non-`docType` equality fields,
the filter loop evaluates each selector field independently and appends the
scanned entry once per satisfying field: the returned payload contains, for
each scanned non-empty record, exactly `m` copies of its `{Key, Record}`
entry, where `m` is the number of non-`docType` selector fields the record
matches. -/
theorem C5_duplicate_append (store : Store) (q : JsVal) (selFields : List (String × JsVal))
    (dt : JsVal) (hsel : getSelector q = some (selFields, dt))
    (h2 : 2 ≤ (selFields.filter (fun p => p.1 ≠ "docType")).length) :
    queryByString store q =
      Except.ok
        (((getStateByRange store (dt.jsToString ++ "0") (dt.jsToString ++ "z")).filter
            (fun kv => kv.2.nonEmptyStr)).flatMap
          (fun kv => List.replicate (matchCount selFields (decodeRecord kv.2))
            ⟨kv.1, decodeRecord kv.2⟩)) := by
  have hlen : selFields.length ≠ 1 := by
    intro hcon
    have hle := List.length_filter_le (fun p => decide (p.1 ≠ "docType")) selFields
    rw [hcon] at hle
    omega
  rw [queryByString_of_getSelector store q selFields dt hsel, scanOut_eq_flatMap]
  congr 1
  exact List.flatMap_congr
    (fun kv _ => processScanEntry_eq_replicate selFields kv.1 kv.2 hlen)

/-- Claim C5 witness. A record matching both non-`docType` fields of the
selector appears twice in the returned payload. -/
theorem C5_witness :
    queryByString dupStore dupQuery =
      Except.ok [⟨"entity1", RecVal.record dupRec⟩, ⟨"entity1", RecVal.record dupRec⟩] := by
  have h := C5_duplicate_append dupStore dupQuery
    [("docType", JsVal.str "entity"), ("entityName", JsVal.str "Alpha"),
      ("address", JsVal.str "Main")]
    (JsVal.str "entity") rfl (by decide)
  rw [h]
  rfl

/-- Claim C2. For every selector containing `docType` plus exactly one further
equality field `f = v`, `queryByString` acts as a strict filter: the call
returns a payload in which every entry carries a decoded record with
`record[f] == v`, and every scanned record whose decoded value lacks `f` or
holds a different value for `f` contributes no entry to the payload. -/
theorem C2_single_field_filter (store : Store) (d f : String) (v : JsVal)
    (hf : f ≠ "docType") (hd : d ≠ "") :
    ∃ res, queryByString store (mkQuery1 d f v) = Except.ok res
      ∧ (∀ e ∈ res, ∃ r, e.Record = RecVal.record r ∧ jsIndex r f = some v)
      ∧ (∀ kv ∈ getStateByRange store (d ++ "0") (d ++ "z"),
          recIndex (decodeRecord kv.2) f ≠ some v →
          QueryResult.mk kv.1 (decodeRecord kv.2) ∉ res) := by
  have hq := queryByString_of_getSelector store (mkQuery1 d f v) _ _
    (getSelector_mkQuery1 d f v hd)
  simp only [JsVal.jsToString] at hq
  refine ⟨_, hq, ?_, ?_⟩
  · intro e he
    rw [mem_scanOut] at he
    obtain ⟨kv, _, _, hproc⟩ := he
    rw [processScanEntry_eq_replicate _ _ _ (by simp)] at hproc
    rw [List.mem_replicate] at hproc
    obtain ⟨hcnt, heq⟩ := hproc
    rw [matchCount_two d f v _ hf] at hcnt
    have hm : fieldMatches (decodeRecord kv.2) f v = true := by
      by_contra hc
      rw [Bool.not_eq_true] at hc
      rw [hc] at hcnt
      simp at hcnt
    obtain ⟨w, hw, hjw⟩ := fieldMatches_record hm
    refine ⟨w, ?_, hjw⟩
    rw [heq]
    exact hw
  · intro kv hkv hne hcon
    rw [mem_scanOut] at hcon
    obtain ⟨kv', _, _, hproc⟩ := hcon
    rw [processScanEntry_eq_replicate _ _ _ (by simp)] at hproc
    rw [List.mem_replicate] at hproc
    obtain ⟨hcnt, heq⟩ := hproc
    rw [matchCount_two d f v _ hf] at hcnt
    have hm : fieldMatches (decodeRecord kv'.2) f v = true := by
      by_contra hc
      rw [Bool.not_eq_true] at hc
      rw [hc] at hcnt
      simp at hcnt
    have hrec : decodeRecord kv'.2 = decodeRecord kv.2 := by
      have hpr := congrArg QueryResult.Record heq
      simpa using hpr.symm
    rw [hrec] at hm
    exact hne (fieldMatches_recIndex hm)

/-- Claim C2 witness. On the two-entity ledger, the selector
`{"docType":"entity","entityName":"Alpha"}` returns only entries whose record
has `entityName = "Alpha"` and excludes every scanned record that does not. -/
theorem C2_witness :
    ∃ res, queryByString demoStore (mkQuery1 "entity" "entityName" (JsVal.str "Alpha")) =
        Except.ok res
      ∧ (∀ e ∈ res, ∃ r, e.Record = RecVal.record r ∧
          jsIndex r "entityName" = some (JsVal.str "Alpha"))
      ∧ (∀ kv ∈ getStateByRange demoStore ("entity" ++ "0") ("entity" ++ "z"),
          recIndex (decodeRecord kv.2) "entityName" ≠ some (JsVal.str "Alpha") →
          QueryResult.mk kv.1 (decodeRecord kv.2) ∉ res) :=
  C2_single_field_filter demoStore "entity" "entityName" (JsVal.str "Alpha")
    (by decide) (by decide)

/-- Claim C7 counterexample. Under a filtering selector, a scanned entry whose
non-empty bytes fail to decode does not appear in the result at all (its raw
record has no fields, so the field filter excludes it): on a ledger whose only
in-range entry is `("entityA", "not json")`, the selector
`{"docType":"entity","entityName":"Alpha"}` returns the empty payload, against
the claim that such an entry still appears with its raw bytes. -/
theorem C7_counterexample :
    getStateByRange rawStore ("entity" ++ "0") ("entity" ++ "z") =
      [("entityA", Bytes.raw "not json")]
  ∧ (Bytes.raw "not json").nonEmptyStr = true
  ∧ queryByString rawStore rawQuery = Except.ok [] :=
  ⟨rfl, rfl, rfl⟩

/-- Claim C7 amended. A decode failure never aborts a scan: whenever the
selector guard passes, `queryByString` returns a payload.  A scanned entry
with non-empty undecodable bytes appears with its raw text as the record value
in every `docType`-only scan, and a history record with non-empty undecodable
bytes appears with its raw text in the history payload; under a selector with
an additional equality field, the undecodable entry is excluded by the field
filter (its raw record has no fields) while the scan still returns a payload. -/
theorem C7_amended (store : Store) (d k s : String) (hist : List HistRecord)
    (r : HistRecord) (hd : d ≠ "") (hs : s ≠ "")
    (hmem : (k, Bytes.raw s) ∈ getStateByRange store (d ++ "0") (d ++ "z"))
    (hr : r ∈ hist) (hrv : r.value = Bytes.raw s) :
    (∀ q : JsVal, getSelector q ≠ none → ∃ res, queryByString store q = Except.ok res)
  ∧ (∃ res, queryByString store (mkQuery0 d) = Except.ok res ∧
      QueryResult.mk k (RecVal.rawStr s) ∈ res)
  ∧ (∃ hres, (histLoop (hist.map Except.ok) []).1 = Except.ok hres ∧
      HistEntry.mk r.tx_id r.timestamp (if r.is_delete then "true" else "false")
        (RecVal.rawStr s) ∈ hres)
  ∧ (∀ (f : String) (v : JsVal), f ≠ "docType" →
      ∃ res, queryByString store (mkQuery1 d f v) = Except.ok res ∧
        QueryResult.mk k (RecVal.rawStr s) ∉ res) := by
  have hsne : (Bytes.raw s).nonEmptyStr = true := by
    simp [Bytes.nonEmptyStr, isEmpty_false_of_ne hs]
  refine ⟨?_, ?_, ?_, ?_⟩
  · intro q hne
    cases hsel : getSelector q with
    | none => exact absurd hsel hne
    | some p => exact ⟨_, queryByString_of_getSelector store q p.1 p.2 (by rw [hsel])⟩
  · have hq := queryByString_of_getSelector store (mkQuery0 d) _ _ (getSelector_mkQuery0 d hd)
    simp only [JsVal.jsToString] at hq
    refine ⟨_, hq, ?_⟩
    rw [scanOut_single [("docType", JsVal.str d)] rfl]
    exact List.mem_map.mpr ⟨(k, Bytes.raw s), List.mem_filter.mpr ⟨hmem, hsne⟩, rfl⟩
  · refine ⟨_, by rw [histLoop_ok], ?_⟩
    simp only [List.nil_append]
    refine List.mem_map.mpr ⟨r, List.mem_filter.mpr ⟨hr, by rw [hrv]; exact hsne⟩, ?_⟩
    simp [mkHistEntry, hrv, decodeRecord]
  · intro f v hfne
    have hq := queryByString_of_getSelector store (mkQuery1 d f v) _ _
      (getSelector_mkQuery1 d f v hd)
    refine ⟨_, hq, ?_⟩
    intro hcon
    rw [mem_scanOut] at hcon
    obtain ⟨kv', _, _, hproc⟩ := hcon
    rw [processScanEntry_eq_replicate _ _ _ (by simp)] at hproc
    rw [List.mem_replicate] at hproc
    obtain ⟨hcnt, heq⟩ := hproc
    rw [matchCount_two d f v _ hfne] at hcnt
    have hm : fieldMatches (decodeRecord kv'.2) f v = true := by
      by_contra hc
      rw [Bool.not_eq_true] at hc
      rw [hc] at hcnt
      simp at hcnt
    obtain ⟨w, hw, _⟩ := fieldMatches_record hm
    have hpr := congrArg QueryResult.Record heq
    simp only at hpr
    rw [hw] at hpr
    simp at hpr

/-- Claim C7 witness. The undecodable entry `("entityA", "not json")` appears
with its raw text in the `docType`-only scan and in the history payload, and
is excluded (while the scan still succeeds) under a filtering selector. -/
theorem C7_witness :
    (∀ q : JsVal, getSelector q ≠ none →
      ∃ res, queryByString rawStore q = Except.ok res)
  ∧ (∃ res, queryByString rawStore (mkQuery0 "entity") = Except.ok res ∧
      QueryResult.mk "entityA" (RecVal.rawStr "not json") ∈ res)
  ∧ (∃ hres, (histLoop (rawLog.map Except.ok) []).1 = Except.ok hres ∧
      HistEntry.mk "txa" "ta" (if false then "true" else "false")
        (RecVal.rawStr "not json") ∈ hres)
  ∧ (∀ (f : String) (v : JsVal), f ≠ "docType" →
      ∃ res, queryByString rawStore (mkQuery1 "entity" f v) = Except.ok res ∧
        QueryResult.mk "entityA" (RecVal.rawStr "not json") ∉ res) :=
  C7_amended rawStore "entity" "entityA" "not json" rawLog
    ⟨"txa", "ta", false, Bytes.raw "not json"⟩ (by decide) (by decide)
    (by have h : getStateByRange rawStore ("entity" ++ "0") ("entity" ++ "z") =
          [("entityA", Bytes.raw "not json")] := rfl
        rw [h]
        exact List.mem_singleton.mpr rfl)
    (List.mem_singleton.mpr rfl) rfl

/-- Claim C8. A `createEntry` call whose referenced entity registration number
has no existing (non-empty) entity record fails with the parent-not-found
error, and performs no write: the ledger after the failed call is the ledger
before it (both throws in `createEntry` happen before its single `putState`). -/
theorem C8_parent_missing (store : Store) (args : List (String × JsVal))
    (h : (getState store
        ("entity" ++ jsFieldConcatObj args "entityRegistrationNumber")).nonEmptyStr = false) :
    createEntry store args =
      Except.error ("createEntry - Cannot create entry as the Entity does not exist: " ++
        jsFieldConcatObj args "entityRegistrationNumber")
  ∧ stateAfter store (createEntry store args) = store := by
  have hreg : jsFieldConcatObj (objSet args "docType" (JsVal.str "entry"))
      "entityRegistrationNumber" = jsFieldConcatObj args "entityRegistrationNumber" := by
    unfold jsFieldConcatObj
    rw [lookupField_objSet_ne args "docType" "entityRegistrationNumber" _ (by decide)]
  have hcreate : createEntry store args =
      Except.error ("createEntry - Cannot create entry as the Entity does not exist: " ++
        jsFieldConcatObj args "entityRegistrationNumber") := by
    simp only [createEntry]
    rw [hreg, h]
    rfl
  exact ⟨hcreate, by rw [hcreate]; rfl⟩

/-- Claim C8 witness, doubling as end-to-end scenario 3: on the empty ledger,
creating an entry that references entity `999` fails with the parent-not-found
error and leaves the ledger unchanged. -/
theorem C8_witness :
    createEntry [] [("entryId", JsVal.str "1"), ("entityRegistrationNumber", JsVal.str "999")] =
      Except.error ("createEntry - Cannot create entry as the Entity does not exist: " ++
        jsFieldConcatObj [("entryId", JsVal.str "1"),
          ("entityRegistrationNumber", JsVal.str "999")] "entityRegistrationNumber")
  ∧ stateAfter []
      (createEntry [] [("entryId", JsVal.str "1"),
        ("entityRegistrationNumber", JsVal.str "999")]) = [] :=
  C8_parent_missing [] [("entryId", JsVal.str "1"), ("entityRegistrationNumber", JsVal.str "999")] rfl
